import Mathlib

/-!
Verification of the dd-trace-go pipeline-stats transport, the tracer's
read/write span wrapper, and the AWS middleware URL tagging.

Bytes are modelled as `Nat` values (each < 256 where produced by the
encoders), byte strings as `List Nat`.  The msgpack wire format used by
the stats transport is embedded as executable writer/reader pairs with
proved round-trip lemmas.
-/

/-- Big-endian encoding of `n` on `k` bytes (most significant first). -/
def beBytes : Nat → Nat → List Nat
  | 0, _ => []
  | k + 1, n => n / 256 ^ k % 256 :: beBytes k n

/-- Read `k` big-endian bytes from the front of a byte list, returning the
decoded value and the unconsumed tail. -/
def rdBytes : Nat → List Nat → Option (Nat × List Nat)
  | 0, l => some (0, l)
  | _ + 1, [] => none
  | k + 1, b :: l =>
    match rdBytes k l with
    | some (m, rest) => some (b * 256 ^ k + m, rest)
    | none => none

theorem rdBytes_beBytes (k n : Nat) (rest : List Nat) :
    rdBytes k (beBytes k n ++ rest) = some (n % 256 ^ k, rest) := by
  induction k with
  | zero => simp [beBytes, rdBytes, Nat.mod_one]
  | succ k ih =>
    simp only [beBytes, List.cons_append, rdBytes, List.append_eq, ih]
    have h : n / 256 ^ k % 256 * 256 ^ k + n % 256 ^ k = n % 256 ^ (k + 1) := by
      rw [pow_succ, Nat.mod_mul]; ring
    rw [h]

theorem rdBytes_beBytes_of_lt (k n : Nat) (rest : List Nat) (h : n < 256 ^ k) :
    rdBytes k (beBytes k n ++ rest) = some (n, rest) := by
  rw [rdBytes_beBytes, Nat.mod_eq_of_lt h]

/-- Take exactly `n` bytes off the front of a list, failing when fewer are
available. -/
def takeN (n : Nat) (l : List Nat) : Option (List Nat × List Nat) :=
  if n ≤ l.length then some (l.take n, l.drop n) else none

theorem takeN_append (s rest : List Nat) : takeN s.length (s ++ rest) = some (s, rest) := by
  unfold takeN
  rw [if_pos (by simp)]
  rw [List.take_left, List.drop_left]

/-- Msgpack string writer: the minimal header form for the byte length
(fixstr, str8, str16 or str32) followed by the raw bytes. -/
def wStr (s : List Nat) : List Nat :=
  if s.length < 32 then (0xa0 + s.length) :: s
  else if s.length < 256 then 0xd9 :: s.length :: s
  else if s.length < 65536 then 0xda :: (beBytes 2 s.length ++ s)
  else 0xdb :: (beBytes 4 s.length ++ s)

/-- Msgpack string reader, accepting any of the four string header forms. -/
def rStr : List Nat → Option (List Nat × List Nat)
  | [] => none
  | h :: t =>
    if 0xa0 ≤ h ∧ h < 0xc0 then takeN (h - 0xa0) t
    else if h = 0xd9 then
      match t with
      | len :: t2 => takeN len t2
      | [] => none
    else if h = 0xda then
      match rdBytes 2 t with
      | some (len, t2) => takeN len t2
      | none => none
    else if h = 0xdb then
      match rdBytes 4 t with
      | some (len, t2) => takeN len t2
      | none => none
    else none

theorem rStr_wStr (s : List Nat) (hlen : s.length < 2 ^ 32) (rest : List Nat) :
    rStr (wStr s ++ rest) = some (s, rest) := by
  by_cases h1 : s.length < 32
  · have hc : 0xa0 ≤ 0xa0 + s.length ∧ 0xa0 + s.length < 0xc0 := ⟨by omega, by omega⟩
    simp [wStr, rStr, h1, hc, takeN_append]
  · by_cases h2 : s.length < 256
    · simp [wStr, rStr, h1, h2, takeN_append]
    · by_cases h3 : s.length < 65536
      · have hb : rdBytes 2 (beBytes 2 s.length ++ (s ++ rest)) = some (s.length, s ++ rest) :=
          rdBytes_beBytes_of_lt 2 s.length (s ++ rest) (by norm_num; omega)
        simp [wStr, rStr, h1, h2, h3, hb, takeN_append]
      · have hb : rdBytes 4 (beBytes 4 s.length ++ (s ++ rest)) = some (s.length, s ++ rest) :=
          rdBytes_beBytes_of_lt 4 s.length (s ++ rest) (by norm_num at hlen ⊢; omega)
        simp [wStr, rStr, h1, h2, h3, hb, takeN_append]

/-- Msgpack unsigned integer writer: minimal form among positive fixint,
uint8, uint16, uint32 and uint64. -/
def wUint (n : Nat) : List Nat :=
  if n < 128 then [n]
  else if n < 256 then [0xcc, n]
  else if n < 65536 then 0xcd :: beBytes 2 n
  else if n < 4294967296 then 0xce :: beBytes 4 n
  else 0xcf :: beBytes 8 n

/-- Msgpack unsigned integer reader. -/
def rUint : List Nat → Option (Nat × List Nat)
  | [] => none
  | h :: t =>
    if h < 128 then some (h, t)
    else if h = 0xcc then
      match t with
      | b :: t2 => some (b, t2)
      | [] => none
    else if h = 0xcd then rdBytes 2 t
    else if h = 0xce then rdBytes 4 t
    else if h = 0xcf then rdBytes 8 t
    else none

theorem rUint_wUint (n : Nat) (hn : n < 2 ^ 64) (rest : List Nat) :
    rUint (wUint n ++ rest) = some (n, rest) := by
  by_cases h1 : n < 128
  · simp [wUint, rUint, h1]
  · by_cases h2 : n < 256
    · simp [wUint, rUint, h1, h2]
    · by_cases h3 : n < 65536
      · have hb : rdBytes 2 (beBytes 2 n ++ rest) = some (n, rest) :=
          rdBytes_beBytes_of_lt 2 n rest (by norm_num; omega)
        simp [wUint, rUint, h1, h2, h3, hb]
      · by_cases h4 : n < 4294967296
        · have hb : rdBytes 4 (beBytes 4 n ++ rest) = some (n, rest) :=
            rdBytes_beBytes_of_lt 4 n rest (by norm_num; omega)
          simp [wUint, rUint, h1, h2, h3, h4, hb]
        · have hb : rdBytes 8 (beBytes 8 n ++ rest) = some (n, rest) :=
            rdBytes_beBytes_of_lt 8 n rest (by norm_num at hn ⊢; omega)
          simp [wUint, rUint, h1, h2, h3, h4, hb]

/-- Msgpack binary writer: the minimal bin header (bin8, bin16 or bin32)
followed by the raw bytes, as produced for the opaque latency sketches. -/
def wBin (b : List Nat) : List Nat :=
  if b.length < 256 then 0xc4 :: b.length :: b
  else if b.length < 65536 then 0xc5 :: (beBytes 2 b.length ++ b)
  else 0xc6 :: (beBytes 4 b.length ++ b)

/-- Msgpack binary reader. -/
def rBin : List Nat → Option (List Nat × List Nat)
  | [] => none
  | h :: t =>
    if h = 0xc4 then
      match t with
      | len :: t2 => takeN len t2
      | [] => none
    else if h = 0xc5 then
      match rdBytes 2 t with
      | some (len, t2) => takeN len t2
      | none => none
    else if h = 0xc6 then
      match rdBytes 4 t with
      | some (len, t2) => takeN len t2
      | none => none
    else none

theorem rBin_wBin (b : List Nat) (hlen : b.length < 2 ^ 32) (rest : List Nat) :
    rBin (wBin b ++ rest) = some (b, rest) := by
  by_cases h1 : b.length < 256
  · simp [wBin, rBin, h1, takeN_append]
  · by_cases h2 : b.length < 65536
    · have hb : rdBytes 2 (beBytes 2 b.length ++ (b ++ rest)) = some (b.length, b ++ rest) :=
        rdBytes_beBytes_of_lt 2 b.length (b ++ rest) (by norm_num; omega)
      simp [wBin, rBin, h1, h2, hb, takeN_append]
    · have hb : rdBytes 4 (beBytes 4 b.length ++ (b ++ rest)) = some (b.length, b ++ rest) :=
        rdBytes_beBytes_of_lt 4 b.length (b ++ rest) (by norm_num at hlen ⊢; omega)
      simp [wBin, rBin, h1, h2, hb, takeN_append]

/-- Msgpack array header writer (fixarray, array16 or array32). -/
def wArr (n : Nat) : List Nat :=
  if n < 16 then [0x90 + n]
  else if n < 65536 then 0xdc :: beBytes 2 n
  else 0xdd :: beBytes 4 n

/-- Msgpack array header reader. -/
def rArr : List Nat → Option (Nat × List Nat)
  | [] => none
  | h :: t =>
    if 0x90 ≤ h ∧ h < 0xa0 then some (h - 0x90, t)
    else if h = 0xdc then rdBytes 2 t
    else if h = 0xdd then rdBytes 4 t
    else none

theorem rArr_wArr (n : Nat) (hn : n < 2 ^ 32) (rest : List Nat) :
    rArr (wArr n ++ rest) = some (n, rest) := by
  by_cases h1 : n < 16
  · have hc : 0x90 ≤ 0x90 + n ∧ 0x90 + n < 0xa0 := ⟨by omega, by omega⟩
    simp [wArr, rArr, h1, hc]
  · by_cases h2 : n < 65536
    · have hb : rdBytes 2 (beBytes 2 n ++ rest) = some (n, rest) :=
        rdBytes_beBytes_of_lt 2 n rest (by norm_num; omega)
      simp [wArr, rArr, h1, h2, hb]
    · have hb : rdBytes 4 (beBytes 4 n ++ rest) = some (n, rest) :=
        rdBytes_beBytes_of_lt 4 n rest (by norm_num at hn ⊢; omega)
      simp [wArr, rArr, h1, h2, hb]

/-- Msgpack map header writer (all maps emitted here have at most 15 keys,
so the fixmap form always applies). -/
def wMap (n : Nat) : List Nat := [0x80 + n]

/-- Msgpack fixmap header reader. -/
def rMap : List Nat → Option (Nat × List Nat)
  | [] => none
  | h :: t => if 0x80 ≤ h ∧ h < 0x90 then some (h - 0x80, t) else none

theorem rMap_wMap (n : Nat) (hn : n < 16) (rest : List Nat) :
    rMap (wMap n ++ rest) = some (n, rest) := by
  have hc : 0x80 ≤ 0x80 + n ∧ 0x80 + n < 0x90 := ⟨by omega, by omega⟩
  simp [wMap, rMap, hc]

/-! ## Pipeline-stats data model

Mirrors the `StatsPayload` / `StatsBucket` / `StatsPoint` structures of the
datastreams package.  Go strings are modelled by their UTF-8 byte sequences
(`List Nat`), Go `uint64` fields by `Nat` values below `2 ^ 64`, and Go
`[]byte` fields by `List Nat`. -/

/-- One aggregated edge in a data-pathway graph. -/
structure StatsPoint where
  Service : List Nat
  EdgeTags : List (List Nat)
  Hash : Nat
  ParentHash : Nat
  PathwayLatency : List Nat
  EdgeLatency : List Nat
deriving DecidableEq

/-- A fixed-duration aggregation window. -/
structure StatsBucket where
  Start : Nat
  Duration : Nat
  Stats : List StatsPoint
deriving DecidableEq

/-- The top-level stats envelope handed to the transport. -/
structure StatsPayload where
  Env : List Nat
  Stats : List StatsBucket
deriving DecidableEq

/-- UTF-8 bytes of an ASCII field-name literal. -/
def asciiBytes (s : String) : List Nat := s.data.map Char.toNat

def keyEnv : List Nat := asciiBytes "Env"
def keyStats : List Nat := asciiBytes "Stats"
def keyStart : List Nat := asciiBytes "Start"
def keyDuration : List Nat := asciiBytes "Duration"
def keyService : List Nat := asciiBytes "Service"
def keyEdgeTags : List Nat := asciiBytes "EdgeTags"
def keyHash : List Nat := asciiBytes "Hash"
def keyParentHash : List Nat := asciiBytes "ParentHash"
def keyPathwayLatency : List Nat := asciiBytes "PathwayLatency"
def keyEdgeLatency : List Nat := asciiBytes "EdgeLatency"

/-- Modelled from the spec: the msgp-generated encoding of a `StatsPoint`
(the generated `EncodeMsg` is not among the provided sources) — a
field-tagged map with the field names as keys, in declaration order. -/
def encodeStatsPoint (p : StatsPoint) : List Nat :=
  wMap 6 ++ wStr keyService ++ wStr p.Service
    ++ wStr keyEdgeTags ++ wArr p.EdgeTags.length ++ (p.EdgeTags.map wStr).flatten
    ++ wStr keyHash ++ wUint p.Hash
    ++ wStr keyParentHash ++ wUint p.ParentHash
    ++ wStr keyPathwayLatency ++ wBin p.PathwayLatency
    ++ wStr keyEdgeLatency ++ wBin p.EdgeLatency

/-- Modelled from the spec: msgp-generated encoding of a `StatsBucket`. -/
def encodeStatsBucket (b : StatsBucket) : List Nat :=
  wMap 3 ++ wStr keyStart ++ wUint b.Start
    ++ wStr keyDuration ++ wUint b.Duration
    ++ wStr keyStats ++ wArr b.Stats.length ++ (b.Stats.map encodeStatsPoint).flatten

/-- Modelled from the spec: msgp-generated encoding of the `StatsPayload`
envelope. -/
def encodeStatsPayload (p : StatsPayload) : List Nat :=
  wMap 2 ++ wStr keyEnv ++ wStr p.Env
    ++ wStr keyStats ++ wArr p.Stats.length ++ (p.Stats.map encodeStatsBucket).flatten

/-- Read a field key and check it is the expected one. -/
def expectKey (k l : List Nat) : Option (List Nat) :=
  match rStr l with
  | some (k2, l2) => if k2 = k then some l2 else none
  | none => none

theorem expectKey_append (k : List Nat) (hk : k.length < 2 ^ 32) (rest : List Nat) :
    expectKey k (wStr k ++ rest) = some rest := by
  simp [expectKey, rStr_wStr k hk rest]

/-- Read `n` consecutive elements with the element reader `dec`. -/
def rList (dec : List Nat → Option (α × List Nat)) : Nat → List Nat → Option (List α × List Nat)
  | 0, l => some ([], l)
  | k + 1, l =>
    match dec l with
    | some (x, l2) =>
      match rList dec k l2 with
      | some (xs, l3) => some (x :: xs, l3)
      | none => none
    | none => none

theorem rList_append (dec : List Nat → Option (α × List Nat)) (enc : α → List Nat)
    (xs : List α) (rest : List Nat)
    (h : ∀ x ∈ xs, ∀ r, dec (enc x ++ r) = some (x, r)) :
    rList dec xs.length ((xs.map enc).flatten ++ rest) = some (xs, rest) := by
  induction xs with
  | nil => simp [rList]
  | cons x xs ih =>
    have ih2 := ih (fun y hy r => h y (List.mem_cons_of_mem _ hy) r)
    simp only [List.map_cons, List.flatten_cons, List.length_cons, List.append_assoc, rList,
      h x (List.mem_cons_self x xs) _, ih2]

/-- Decoder for one `StatsPoint`, accepting the canonical field order the
encoder emits. -/
def decodeStatsPoint (l : List Nat) : Option (StatsPoint × List Nat) := do
  let (n, l) ← rMap l
  if n = 6 then
    let l ← expectKey keyService l
    let (service, l) ← rStr l
    let l ← expectKey keyEdgeTags l
    let (ntags, l) ← rArr l
    let (tags, l) ← rList rStr ntags l
    let l ← expectKey keyHash l
    let (hash, l) ← rUint l
    let l ← expectKey keyParentHash l
    let (parentHash, l) ← rUint l
    let l ← expectKey keyPathwayLatency l
    let (pw, l) ← rBin l
    let l ← expectKey keyEdgeLatency l
    let (el, l) ← rBin l
    some ({ Service := service, EdgeTags := tags, Hash := hash, ParentHash := parentHash,
            PathwayLatency := pw, EdgeLatency := el }, l)
  else none

/-- Decoder for one `StatsBucket`. -/
def decodeStatsBucket (l : List Nat) : Option (StatsBucket × List Nat) := do
  let (n, l) ← rMap l
  if n = 3 then
    let l ← expectKey keyStart l
    let (start, l) ← rUint l
    let l ← expectKey keyDuration l
    let (duration, l) ← rUint l
    let l ← expectKey keyStats l
    let (npts, l) ← rArr l
    let (pts, l) ← rList decodeStatsPoint npts l
    some ({ Start := start, Duration := duration, Stats := pts }, l)
  else none

/-- Decoder for the `StatsPayload` envelope. -/
def decodeStatsPayload (l : List Nat) : Option (StatsPayload × List Nat) := do
  let (n, l) ← rMap l
  if n = 2 then
    let l ← expectKey keyEnv l
    let (env, l) ← rStr l
    let l ← expectKey keyStats l
    let (nbuckets, l) ← rArr l
    let (buckets, l) ← rList decodeStatsBucket nbuckets l
    some ({ Env := env, Stats := buckets }, l)
  else none

/-- Wellformedness of a `StatsPoint`: its Go field types bound the string,
slice and integer sizes. -/
def WFPoint (p : StatsPoint) : Prop :=
  p.Service.length < 2 ^ 32 ∧ (∀ t ∈ p.EdgeTags, t.length < 2 ^ 32) ∧
  p.EdgeTags.length < 2 ^ 32 ∧ p.Hash < 2 ^ 64 ∧ p.ParentHash < 2 ^ 64 ∧
  p.PathwayLatency.length < 2 ^ 32 ∧ p.EdgeLatency.length < 2 ^ 32

/-- Wellformedness of a `StatsBucket`. -/
def WFBucket (b : StatsBucket) : Prop :=
  b.Start < 2 ^ 64 ∧ b.Duration < 2 ^ 64 ∧ b.Stats.length < 2 ^ 32 ∧ ∀ p ∈ b.Stats, WFPoint p

/-- Wellformedness of a `StatsPayload`. -/
def WFPayload (p : StatsPayload) : Prop :=
  p.Env.length < 2 ^ 32 ∧ p.Stats.length < 2 ^ 32 ∧ ∀ b ∈ p.Stats, WFBucket b

instance : DecidablePred WFPoint := fun p => by unfold WFPoint; infer_instance
instance : DecidablePred WFBucket := fun b => by unfold WFBucket; infer_instance
instance : DecidablePred WFPayload := fun p => by unfold WFPayload; infer_instance

theorem decode_encodeStatsPoint (p : StatsPoint) (hwf : WFPoint p) (rest : List Nat) :
    decodeStatsPoint (encodeStatsPoint p ++ rest) = some (p, rest) := by
  obtain ⟨h1, h2, h3, h4, h5, h6, h7⟩ := hwf
  simp only [encodeStatsPoint, List.append_assoc]
  rw [decodeStatsPoint]
  rw [rMap_wMap 6 (by omega)]
  simp only [Option.bind_eq_bind, Option.some_bind, if_pos rfl]
  rw [expectKey_append keyService (by decide)]
  simp only [Option.some_bind]
  rw [rStr_wStr p.Service h1]
  simp only [Option.some_bind]
  rw [expectKey_append keyEdgeTags (by decide)]
  simp only [Option.some_bind]
  rw [rArr_wArr p.EdgeTags.length h3]
  simp only [Option.some_bind]
  rw [rList_append rStr wStr p.EdgeTags _ (fun t ht r => rStr_wStr t (h2 t ht) r)]
  simp only [Option.some_bind]
  rw [expectKey_append keyHash (by decide)]
  simp only [Option.some_bind]
  rw [rUint_wUint p.Hash h4]
  simp only [Option.some_bind]
  rw [expectKey_append keyParentHash (by decide)]
  simp only [Option.some_bind]
  rw [rUint_wUint p.ParentHash h5]
  simp only [Option.some_bind]
  rw [expectKey_append keyPathwayLatency (by decide)]
  simp only [Option.some_bind]
  rw [rBin_wBin p.PathwayLatency h6]
  simp only [Option.some_bind]
  rw [expectKey_append keyEdgeLatency (by decide)]
  simp only [Option.some_bind]
  rw [rBin_wBin p.EdgeLatency h7]
  simp only [Option.some_bind]
  rfl

theorem decode_encodeStatsBucket (b : StatsBucket) (hwf : WFBucket b) (rest : List Nat) :
    decodeStatsBucket (encodeStatsBucket b ++ rest) = some (b, rest) := by
  obtain ⟨h1, h2, h3, h4⟩ := hwf
  simp only [encodeStatsBucket, List.append_assoc]
  rw [decodeStatsBucket]
  rw [rMap_wMap 3 (by omega)]
  simp only [Option.bind_eq_bind, Option.some_bind, if_pos rfl]
  rw [expectKey_append keyStart (by decide)]
  simp only [Option.some_bind]
  rw [rUint_wUint b.Start h1]
  simp only [Option.some_bind]
  rw [expectKey_append keyDuration (by decide)]
  simp only [Option.some_bind]
  rw [rUint_wUint b.Duration h2]
  simp only [Option.some_bind]
  rw [expectKey_append keyStats (by decide)]
  simp only [Option.some_bind]
  rw [rArr_wArr b.Stats.length h3]
  simp only [Option.some_bind]
  rw [rList_append decodeStatsPoint encodeStatsPoint b.Stats _
    (fun p hp r => decode_encodeStatsPoint p (h4 p hp) r)]
  simp only [Option.some_bind]
  rfl

theorem decode_encodeStatsPayload (p : StatsPayload) (hwf : WFPayload p) (rest : List Nat) :
    decodeStatsPayload (encodeStatsPayload p ++ rest) = some (p, rest) := by
  obtain ⟨h1, h2, h3⟩ := hwf
  simp only [encodeStatsPayload, List.append_assoc]
  rw [decodeStatsPayload]
  rw [rMap_wMap 2 (by omega)]
  simp only [Option.bind_eq_bind, Option.some_bind, if_pos rfl]
  rw [expectKey_append keyEnv (by decide)]
  simp only [Option.some_bind]
  rw [rStr_wStr p.Env h1]
  simp only [Option.some_bind]
  rw [expectKey_append keyStats (by decide)]
  simp only [Option.some_bind]
  rw [rArr_wArr p.Stats.length h2]
  simp only [Option.some_bind]
  rw [rList_append decodeStatsBucket encodeStatsBucket p.Stats _
    (fun b hb r => decode_encodeStatsBucket b (h3 b hb) r)]
  simp only [Option.some_bind]
  rfl

/-! ## Stats transport

The datastreams HTTP transport (`newHTTPTransport` / `sendPipelineStats`).
Only the transport's test is among the provided sources, so the transport
itself is modelled from the spec, with the test's expectations fixing the
concrete URLs, headers and body format. -/

/-- Modelled from the spec: the standard streaming compressor (Go's
`compress/gzip`, an external library) is treated as a reversible black box:
a recognisable two-byte gzip magic header followed by the input bytes.
Compression is always applied, never optional. -/
def gzipCompress (b : List Nat) : List Nat := 0x1f :: 0x8b :: b

/-- Inverse of the modelled compressor; fails on a stream that does not
start with the gzip magic header. -/
def gzipDecompress : List Nat → Option (List Nat)
  | 0x1f :: 0x8b :: b => some b
  | _ => none

theorem gzipDecompress_gzipCompress (b : List Nat) : gzipDecompress (gzipCompress b) = some b :=
  rfl

/-- The transport's configuration, fixed at construction: the resolved
target URL and the full request header set. -/
structure httpTransport where
  url : String
  headers : List (String × String)
deriving DecidableEq

/-- Modelled from the spec: `newHTTPTransport` resolves the endpoint once at
construction (HTTPS intake URL in agentless mode, plain HTTP agent URL
otherwise) and fixes the header set.  The runtime language version and
interpreter triple are process-wide constants, passed here as parameters. -/
def newHTTPTransport (agentAddr site apiKey : String) (agentless : Bool)
    (langVersion interp : String) : httpTransport :=
  { url :=
      if agentless then "https://trace.agent." ++ site ++ "/api/v0.1/pipeline_stats"
      else "http://" ++ agentAddr ++ "/v0.1/pipeline_stats",
    headers := [
      ("Content-Type", "application/msgpack"),
      ("Content-Encoding", "gzip"),
      ("Dd-Api-Key", apiKey),
      ("Datadog-Meta-Lang", "go"),
      ("Datadog-Meta-Lang-Version", langVersion),
      ("Datadog-Meta-Lang-Interpreter", interp)] }

/-- An HTTP request as handed to the underlying client. -/
structure HTTPRequest where
  method : String
  url : String
  headers : List (String × String)
  body : List Nat
deriving DecidableEq

/-- An HTTP response; the transport only ever inspects the status code. -/
structure HTTPResponse where
  statusCode : Nat
deriving DecidableEq

/-- The injected HTTP client: one round trip, returning either a
transport-level error or a response. -/
def Client : Type := HTTPRequest → Except String HTTPResponse

/-- Modelled from the spec: the single POST request `sendPipelineStats`
constructs — resolved URL, configured headers, and a body that is always
the gzip-compressed msgpack encoding of the payload. -/
def buildRequest (t : httpTransport) (p : StatsPayload) : HTTPRequest :=
  { method := "POST", url := t.url, headers := t.headers,
    body := gzipCompress (encodeStatsPayload p) }

/-- Modelled from the spec: `sendPipelineStats` serializes, compresses,
issues exactly one request through the injected client, and returns an
error exactly when the client fails at transport level or the response
status is outside the 2xx range.  The first component records every
request issued through the client during the call. -/
def sendPipelineStats (t : httpTransport) (client : Client) (p : StatsPayload) :
    List HTTPRequest × Option String :=
  let req := buildRequest t p
  match client req with
  | .error e => ([req], some ("sending failed: " ++ e))
  | .ok resp =>
    if 200 ≤ resp.statusCode ∧ resp.statusCode < 300 then ([req], none)
    else ([req], some ("unexpected response status: " ++ toString resp.statusCode))

/-- State-threaded form of `sendPipelineStats`: the payload is an explicit
piece of state handed in and returned, making the read-only traversal of
the payload visible as a frame property. -/
def sendPipelineStatsSt (t : httpTransport) (client : Client) (p : StatsPayload) :
    (List HTTPRequest × Option String) × StatsPayload :=
  (sendPipelineStats t client p, p)

/-- Fuel-driven worker for `interleavings`; the fuel is structurally
decreasing, keeping the definition kernel-reducible. -/
def interAux : Nat → List α → List α → List (List α)
  | 0, xs, ys => [xs ++ ys]
  | _ + 1, [], ys => [ys]
  | _ + 1, x :: xs, [] => [x :: xs]
  | n + 1, x :: xs, y :: ys =>
    ((interAux n xs (y :: ys)).map (List.cons x))
      ++ ((interAux n (x :: xs) ys).map (List.cons y))

/-- All interleavings of two event traces, used to model concurrent submit
calls whose only shared step is the atomic client round trip. -/
def interleavings (xs ys : List α) : List (List α) :=
  interAux (xs.length + ys.length) xs ys

theorem sendPipelineStats_requests (t : httpTransport) (client : Client) (p : StatsPayload) :
    (sendPipelineStats t client p).1 = [buildRequest t p] := by
  unfold sendPipelineStats
  rcases h : client (buildRequest t p) with e | resp
  · simp [h]
  · simp only [h]
    split_ifs <;> rfl

/-! ## Concrete fixtures

The payload and configuration of `TestHTTPTransport` in
`transport_test.go`, used to instantiate the claim theorems. -/

/-- The test's single stats point. -/
def testPoint : StatsPoint :=
  { Service := asciiBytes "service-1", EdgeTags := [asciiBytes "edge-1"], Hash := 1,
    ParentHash := 2, PathwayLatency := [1, 2, 3], EdgeLatency := [4, 5, 6] }

/-- The test's single stats bucket. -/
def testBucket : StatsBucket := { Start := 2, Duration := 10, Stats := [testPoint] }

/-- The payload of `TestHTTPTransport`. -/
def testPayload : StatsPayload := { Env := asciiBytes "env-1", Stats := [testBucket] }

/-- A tiny payload for cheap concrete evaluations. -/
def emptyPayload : StatsPayload := { Env := [], Stats := [] }

/-- A second tiny payload, distinct from `emptyPayload`. -/
def secondPayload : StatsPayload := { Env := asciiBytes "x", Stats := [] }

/-- A client that always answers 200, mirroring the test's fake transport. -/
def okClient : Client := fun _ => .ok { statusCode := 200 }

/-- The agentless transport of the test. -/
def testTransport : httpTransport :=
  newHTTPTransport "agent-address" "datadoghq.com" "key" true "1.21.0" "gc-amd64-linux"

/-- The agent-relayed transport of the test. -/
def agentTransport : httpTransport :=
  newHTTPTransport "agent-address:8126" "datadoghq.com" "key" false "1.21.0" "gc-amd64-linux"

/-! ## Claims C1 – C8: the stats transport -/

/-- Claim C1: for every StatsPayload submitted, the single HTTP request body
is the gzip-compressed msgpack encoding of the payload — compression is
always applied — and decompressing then decoding the body recovers a payload
equal to the original in every field. -/
theorem sendPipelineStats_body_roundtrip (t : httpTransport) (client : Client)
    (p : StatsPayload) (hwf : WFPayload p) :
    ∀ r ∈ (sendPipelineStats t client p).1,
      r.body = gzipCompress (encodeStatsPayload p) ∧
      (gzipDecompress r.body).bind decodeStatsPayload = some (p, []) := by
  intro r hr
  rw [sendPipelineStats_requests] at hr
  simp only [List.mem_singleton] at hr
  subst hr
  refine ⟨rfl, ?_⟩
  have hdec := decode_encodeStatsPayload p hwf []
  rw [List.append_nil] at hdec
  simp [buildRequest, gzipDecompress_gzipCompress, hdec]

/-- Witness for C1 at the payload of `TestHTTPTransport`. -/
theorem sendPipelineStats_body_roundtrip_witness :
    (buildRequest testTransport testPayload).body
        = gzipCompress (encodeStatsPayload testPayload) ∧
    (gzipDecompress (buildRequest testTransport testPayload).body).bind decodeStatsPayload
        = some (testPayload, []) :=
  sendPipelineStats_body_roundtrip testTransport okClient testPayload (by decide)
    (buildRequest testTransport testPayload) (by decide)

/-- Claim C2: with agentless = true the resolved URL is
`https://trace.agent.<site>/api/v0.1/pipeline_stats`, and for
site = "datadoghq.com" every request issued by submit targets exactly
`https://trace.agent.datadoghq.com/api/v0.1/pipeline_stats`. -/
theorem newHTTPTransport_agentless_url (agentAddr apiKey langVersion interp site : String)
    (client : Client) (p : StatsPayload) :
    (newHTTPTransport agentAddr site apiKey true langVersion interp).url
        = "https://trace.agent." ++ site ++ "/api/v0.1/pipeline_stats" ∧
    ∀ r ∈ (sendPipelineStats (newHTTPTransport agentAddr "datadoghq.com" apiKey true
        langVersion interp) client p).1,
      r.url = "https://trace.agent.datadoghq.com/api/v0.1/pipeline_stats" := by
  refine ⟨rfl, ?_⟩
  intro r hr
  rw [sendPipelineStats_requests] at hr
  simp only [List.mem_singleton] at hr
  subst hr
  rfl

/-- Witness for C2 at the test's agentless configuration. -/
theorem newHTTPTransport_agentless_url_witness :
    (buildRequest (newHTTPTransport "agent-address" "datadoghq.com" "key" true "1.21.0"
        "gc-amd64-linux") emptyPayload).url
      = "https://trace.agent.datadoghq.com/api/v0.1/pipeline_stats" :=
  (newHTTPTransport_agentless_url "agent-address" "key" "1.21.0" "gc-amd64-linux"
      "datadoghq.com" okClient emptyPayload).2 _ (by decide)

/-- Claim C3: with agentless = false the resolved URL is
`http://<agent-address>/v0.1/pipeline_stats`, and for agent address
"agent-address:8126" every request issued by submit targets exactly
`http://agent-address:8126/v0.1/pipeline_stats`. -/
theorem newHTTPTransport_agent_url (site apiKey langVersion interp agentAddr : String)
    (client : Client) (p : StatsPayload) :
    (newHTTPTransport agentAddr site apiKey false langVersion interp).url
        = "http://" ++ agentAddr ++ "/v0.1/pipeline_stats" ∧
    ∀ r ∈ (sendPipelineStats (newHTTPTransport "agent-address:8126" site apiKey false
        langVersion interp) client p).1,
      r.url = "http://agent-address:8126/v0.1/pipeline_stats" := by
  refine ⟨rfl, ?_⟩
  intro r hr
  rw [sendPipelineStats_requests] at hr
  simp only [List.mem_singleton] at hr
  subst hr
  rfl

/-- Witness for C3 at the test's agent-relayed configuration. -/
theorem newHTTPTransport_agent_url_witness :
    (buildRequest (newHTTPTransport "agent-address:8126" "datadoghq.com" "key" false "1.21.0"
        "gc-amd64-linux") emptyPayload).url
      = "http://agent-address:8126/v0.1/pipeline_stats" :=
  (newHTTPTransport_agent_url "datadoghq.com" "key" "1.21.0" "gc-amd64-linux"
      "agent-address:8126" okClient emptyPayload).2 _ (by decide)

/-- Claim C4: every request issued by submit carries exactly the six required
headers with their exact values — Content-Type, Content-Encoding, Dd-Api-Key
(the configured key), Datadog-Meta-Lang ("go"), Datadog-Meta-Lang-Version and
Datadog-Meta-Lang-Interpreter. -/
theorem sendPipelineStats_headers (agentAddr site apiKey : String) (agentless : Bool)
    (langVersion interp : String) (client : Client) (p : StatsPayload) :
    ∀ r ∈ (sendPipelineStats (newHTTPTransport agentAddr site apiKey agentless
        langVersion interp) client p).1,
      r.headers = [("Content-Type", "application/msgpack"), ("Content-Encoding", "gzip"),
        ("Dd-Api-Key", apiKey), ("Datadog-Meta-Lang", "go"),
        ("Datadog-Meta-Lang-Version", langVersion),
        ("Datadog-Meta-Lang-Interpreter", interp)] ∧
      List.lookup "Dd-Api-Key" r.headers = some apiKey ∧
      List.lookup "Datadog-Meta-Lang" r.headers = some "go" := by
  intro r hr
  rw [sendPipelineStats_requests] at hr
  simp only [List.mem_singleton] at hr
  subst hr
  exact ⟨rfl, rfl, rfl⟩

/-- Witness for C4 at the test's configuration with api key "key". -/
theorem sendPipelineStats_headers_witness :
    (buildRequest testTransport emptyPayload).headers
        = [("Content-Type", "application/msgpack"), ("Content-Encoding", "gzip"),
           ("Dd-Api-Key", "key"), ("Datadog-Meta-Lang", "go"),
           ("Datadog-Meta-Lang-Version", "1.21.0"),
           ("Datadog-Meta-Lang-Interpreter", "gc-amd64-linux")] ∧
    List.lookup "Dd-Api-Key" (buildRequest testTransport emptyPayload).headers = some "key" ∧
    List.lookup "Datadog-Meta-Lang" (buildRequest testTransport emptyPayload).headers
        = some "go" :=
  sendPipelineStats_headers "agent-address" "datadoghq.com" "key" true "1.21.0"
    "gc-amd64-linux" okClient emptyPayload (buildRequest testTransport emptyPayload) (by decide)

/-- Claim C5: submit succeeds exactly when the client round trip succeeds
with a 2xx status; any transport-level error or non-2xx status yields an
error. -/
theorem sendPipelineStats_error_iff (t : httpTransport) (client : Client) (p : StatsPayload) :
    (sendPipelineStats t client p).2 = none ↔
      ∃ resp, client (buildRequest t p) = .ok resp ∧
        200 ≤ resp.statusCode ∧ resp.statusCode < 300 := by
  unfold sendPipelineStats
  rcases h : client (buildRequest t p) with e | resp
  · simp [h]
  · simp only [h]
    split_ifs with hs
    · constructor
      · intro _
        exact ⟨resp, rfl, hs⟩
      · intro _
        rfl
    · constructor
      · intro hn
        exact absurd hn (by simp)
      · rintro ⟨resp2, heq, hrange⟩
        injection heq with he
        subst he
        exact absurd hrange hs

/-- Claim C6: every submit call issues exactly one HTTP request through the
configured client, regardless of the outcome. -/
theorem sendPipelineStats_single_request (t : httpTransport) (client : Client)
    (p : StatsPayload) :
    (sendPipelineStats t client p).1 = [buildRequest t p] ∧
    (sendPipelineStats t client p).1.length = 1 := by
  rw [sendPipelineStats_requests]
  exact ⟨rfl, rfl⟩

/-- Claim C7: the payload handed to submit is unchanged after the call: in
the state-threaded form the payload returned is the payload passed in, and
threading the state does not alter the observable result. -/
theorem sendPipelineStats_payload_unchanged (t : httpTransport) (client : Client)
    (p : StatsPayload) :
    (sendPipelineStatsSt t client p).2 = p ∧
    (sendPipelineStatsSt t client p).1 = sendPipelineStats t client p :=
  ⟨rfl, rfl⟩

/-- Claim C8: two submit calls against the same transport contribute one
atomic, complete request each: any interleaving of their request traces is
one of the two orderings of the two complete requests, and every request in
it is the full request of one of the two payloads — no corrupted or
interleaved bodies. -/
theorem sendPipelineStats_concurrent_interleave (t : httpTransport) (c1 c2 : Client)
    (p1 p2 : StatsPayload) (l : List HTTPRequest)
    (hl : l ∈ interleavings (sendPipelineStats t c1 p1).1 (sendPipelineStats t c2 p2).1) :
    (l = [buildRequest t p1, buildRequest t p2]
      ∨ l = [buildRequest t p2, buildRequest t p1]) ∧
    ∀ r ∈ l, r.body = gzipCompress (encodeStatsPayload p1)
      ∨ r.body = gzipCompress (encodeStatsPayload p2) := by
  rw [sendPipelineStats_requests, sendPipelineStats_requests] at hl
  have hint : interleavings [buildRequest t p1] [buildRequest t p2]
      = [[buildRequest t p1, buildRequest t p2], [buildRequest t p2, buildRequest t p1]] := by
    simp [interleavings, interAux]
  rw [hint] at hl
  simp only [List.mem_cons, List.mem_singleton, List.not_mem_nil, or_false] at hl
  refine ⟨hl, ?_⟩
  intro r hr
  rcases hl with h | h <;> subst h <;> simp only [List.mem_cons, List.mem_singleton,
    List.not_mem_nil, or_false] at hr
  · rcases hr with h | h <;> subst h
    · exact Or.inl rfl
    · exact Or.inr rfl
  · rcases hr with h | h <;> subst h
    · exact Or.inr rfl
    · exact Or.inl rfl

/-- Witness for C8: a concrete interleaving of two concurrent submits. -/
theorem sendPipelineStats_concurrent_interleave_witness :
    ([buildRequest testTransport emptyPayload, buildRequest testTransport secondPayload]
        = [buildRequest testTransport emptyPayload, buildRequest testTransport secondPayload]
      ∨ [buildRequest testTransport emptyPayload, buildRequest testTransport secondPayload]
        = [buildRequest testTransport secondPayload, buildRequest testTransport emptyPayload]) ∧
    ∀ r ∈ [buildRequest testTransport emptyPayload, buildRequest testTransport secondPayload],
      r.body = gzipCompress (encodeStatsPayload emptyPayload)
        ∨ r.body = gzipCompress (encodeStatsPayload secondPayload) :=
  sendPipelineStats_concurrent_interleave testTransport okClient okClient emptyPayload
    secondPayload
    [buildRequest testTransport emptyPayload, buildRequest testTransport secondPayload]
    (by decide)

/-! ## Claim C9: the tracer's read/write span wrapper

Embedding of `readWriteSpan.SetTag` and `readWriteSpan.SetOperationName`
(tracer package).  Spans carry the fields those methods touch; Go maps are
modelled as association lists and float64 metric values as integers (only
their identity matters here). -/

/-- A tag value as passed to SetTag: a string or a numeric value. -/
inductive TagValue where
  | str (s : String)
  | num (n : Int)
deriving DecidableEq

/-- The underlying mutable span of the tracer. -/
structure span where
  Name : String
  Service : String
  Resource : String
  SpanType : String
  Error : Int
  Meta : List (String × String)
  Metrics : List (String × Int)
deriving DecidableEq

/-- Tag key constants of the repository's `ext` package (declared outside
the provided sources; values are the package's documented constants). -/
def ext.SpanName : String := "span.name"

def ext.SpanType : String := "span.type"

def ext.ResourceName : String := "resource.name"

def ext.ServiceName : String := "service.name"

def ext.HTTPCode : String := "http.status_code"

def ext.Environment : String := "env"

def ext.AnalyticsEvent : String := "analytics.event"

def ext.EventSampleRate : String := "_dd1.sr.eausr"

def ext.ManualKeep : String := "manual.keep"

def ext.ManualDrop : String := "manual.drop"

def ext.SamplingPriority : String := "sampling.priority"

/-- The tracer's internal sampling priority metric key. -/
def keySamplingPriority : String := "_sampling_priority_v1"

/-- The tracer's internal measured metric key. -/
def keyMeasured : String := "_dd.measured"

/-- The tracer's internal top-level metric key. -/
def keyTopLevel : String := "_dd.top_level"

/-- Insert-or-replace on an association list, the model of a Go map write. -/
def setAssoc : List (String × α) → String → α → List (String × α)
  | [], k, v => [(k, v)]
  | (k2, v2) :: t, k, v => if k2 = k then (k, v) :: t else (k2, v2) :: setAssoc t k v

/-- Modelled from the spec: `span.setTagLocked` (tracer `span.go`, not among
the provided sources) adds the key/value metadata to the span — string
values go to the Meta map, numeric values to the Metrics map. -/
def setTagLocked (s : span) (key : String) (v : TagValue) : span :=
  match v with
  | .str sv => { s with Meta := setAssoc s.Meta key sv }
  | .num n => { s with Metrics := setAssoc s.Metrics key n }

/-- Embedding of `readWriteSpan.SetTag`: metric-aggregation keys and
sampling-priority keys are rejected (the span is returned unchanged, the Go
method only logs); any other key is set normally. -/
def readWriteSpan.SetTag (s : span) (key : String) (v : TagValue) : span :=
  if key = ext.SpanName ∨ key = ext.SpanType ∨ key = ext.ResourceName ∨
      key = ext.ServiceName ∨ key = ext.HTTPCode ∨ key = ext.Environment ∨
      key = keyMeasured ∨ key = keyTopLevel ∨ key = ext.AnalyticsEvent ∨
      key = ext.EventSampleRate then
    s
  else if key = ext.ManualKeep ∨ key = ext.ManualDrop ∨ key = ext.SamplingPriority ∨
      key = keySamplingPriority then
    s
  else
    setTagLocked s key v

/-- Embedding of `readWriteSpan.SetOperationName`: not allowed in the
processor, the operation name is never modified (the Go method only logs). -/
def readWriteSpan.SetOperationName (s : span) (_operationName : String) : span := s

/-- The aggregation-critical keys rejected by `readWriteSpan.SetTag`. -/
def aggregationKeys : List String :=
  [ext.SpanName, ext.SpanType, ext.ResourceName, ext.ServiceName, ext.HTTPCode,
   ext.Environment, keyMeasured, keyTopLevel, ext.AnalyticsEvent, ext.EventSampleRate]

/-- The sampling-priority keys rejected by `readWriteSpan.SetTag`. -/
def samplingKeys : List String :=
  [ext.ManualKeep, ext.ManualDrop, ext.SamplingPriority, keySamplingPriority]

/-- Claim C9: SetTag with any aggregation-critical or sampling-priority key
leaves every field of the underlying span unchanged, as does
SetOperationName with any string; SetTag with any other key sets that tag
normally. -/
theorem readWriteSpan_setTag_policy (s : span) (key : String) (v : TagValue)
    (opName : String) :
    (key ∈ aggregationKeys ∨ key ∈ samplingKeys → readWriteSpan.SetTag s key v = s) ∧
    readWriteSpan.SetOperationName s opName = s ∧
    (key ∉ aggregationKeys → key ∉ samplingKeys →
      readWriteSpan.SetTag s key v = setTagLocked s key v) := by
  refine ⟨?_, rfl, ?_⟩
  · intro h
    simp only [aggregationKeys, samplingKeys, List.mem_cons, List.not_mem_nil, or_false] at h
    unfold readWriteSpan.SetTag
    rcases h with h | h
    · rw [if_pos h]
    · by_cases h1 : key = ext.SpanName ∨ key = ext.SpanType ∨ key = ext.ResourceName ∨
          key = ext.ServiceName ∨ key = ext.HTTPCode ∨ key = ext.Environment ∨
          key = keyMeasured ∨ key = keyTopLevel ∨ key = ext.AnalyticsEvent ∨
          key = ext.EventSampleRate
      · rw [if_pos h1]
      · rw [if_neg h1, if_pos h]
  · intro hna hns
    simp only [aggregationKeys, samplingKeys, List.mem_cons, List.not_mem_nil,
      or_false] at hna hns
    unfold readWriteSpan.SetTag
    rw [if_neg hna, if_neg hns]

/-- Witness for C9: setting the span-name tag on a concrete span through the
wrapper leaves the span unchanged. -/
theorem readWriteSpan_setTag_policy_witness :
    readWriteSpan.SetTag
        { Name := "n", Service := "svc", Resource := "res", SpanType := "web", Error := 0,
          Meta := [], Metrics := [] } "span.name" (.str "x")
      = { Name := "n", Service := "svc", Resource := "res", SpanType := "web", Error := 0,
          Meta := [], Metrics := [] } :=
  (readWriteSpan_setTag_policy
      { Name := "n", Service := "svc", Resource := "res", SpanType := "web", Error := 0,
        Meta := [], Metrics := [] } "span.name" (.str "x") "op").1 (by decide)

/-! ## Claim C10: AWS middleware URL tagging

Embedding of the request phase of `traceMiddleware.deserializeTraceMiddleware`
(contrib AWS SDK v2 package): the span's http.url tag is set from a copy of
the request URL whose userinfo has been cleared, and the outgoing request is
not modified. -/

/-- The parts of a parsed URL the middleware touches: the userinfo component
is an optional username/password pair. -/
structure URL where
  scheme : String
  user : Option (String × String)
  host : String
  path : String
deriving DecidableEq

/-- Rendering of a URL, with the userinfo component before the host when
present — the model of Go's `url.URL.String`. -/
def urlString (u : URL) : String :=
  u.scheme ++ "://" ++
    (match u.user with
     | none => ""
     | some (username, password) => username ++ ":" ++ password ++ "@") ++
    u.host ++ u.path

/-- Tag key for the HTTP URL span tag. -/
def ext.HTTPURL : String := "http.url"

/-- Tag key for the HTTP method span tag. -/
def ext.HTTPMethod : String := "http.method"

/-- Tag key for the AWS user-agent span tag. -/
def tagAWSAgent : String := "aws.agent"

/-- An outgoing smithy HTTP request as seen by the middleware. -/
structure smithyRequest where
  method : String
  url : URL
  userAgent : String
deriving DecidableEq

/-- Embedding of the request phase of `deserializeTraceMiddleware`: a copy
of the URL with `User` cleared feeds the http.url tag, and the request
itself is passed on unchanged. -/
def deserializeTraceMiddleware (req : smithyRequest) :
    List (String × String) × smithyRequest :=
  let u : URL := { req.url with user := none }
  ([(ext.HTTPMethod, req.method), (ext.HTTPURL, urlString u), (tagAWSAgent, req.userAgent)],
   req)

/-- Claim C10: the http.url tag is the request URL with the userinfo removed
— it contains neither the username nor the password even when the endpoint
URL carries credentials — and the outgoing request's own URL, credentials
included, is not modified. -/
theorem deserializeTrace_url_credentials (req : smithyRequest) (username password : String)
    (hu : req.url.user = some (username, password))
    (h1 : ¬ username.data <:+: (urlString { req.url with user := none }).data)
    (h2 : ¬ password.data <:+: (urlString { req.url with user := none }).data) :
    List.lookup ext.HTTPURL (deserializeTraceMiddleware req).1
        = some (urlString { req.url with user := none }) ∧
    (∀ tagVal, List.lookup ext.HTTPURL (deserializeTraceMiddleware req).1 = some tagVal →
      ¬ username.data <:+: tagVal.data ∧ ¬ password.data <:+: tagVal.data) ∧
    (deserializeTraceMiddleware req).2 = req ∧
    (deserializeTraceMiddleware req).2.url.user = some (username, password) := by
  have hl : List.lookup ext.HTTPURL (deserializeTraceMiddleware req).1
      = some (urlString { req.url with user := none }) := rfl
  refine ⟨hl, ?_, rfl, hu⟩
  intro tagVal htv
  rw [hl] at htv
  injection htv with he
  subst he
  exact ⟨h1, h2⟩

/-- The endpoint URL of `TestHTTPCredentials`, carrying credentials. -/
def credURL : URL :=
  { scheme := "http", user := some ("myuser", "mypassword"), host := "127.0.0.1:1234",
    path := "/" }

/-- The request of `TestHTTPCredentials`. -/
def credRequest : smithyRequest :=
  { method := "POST", url := credURL, userAgent := "aws-sdk-go-v2" }

/-- Witness for C10 at the endpoint of `TestHTTPCredentials`: credentials
`myuser:mypassword` never reach the tag value. -/
theorem deserializeTrace_url_credentials_witness :
    ¬ "myuser".data <:+: (urlString { credURL with user := none }).data ∧
    ¬ "mypassword".data <:+: (urlString { credURL with user := none }).data :=
  (deserializeTrace_url_credentials credRequest "myuser" "mypassword" rfl
      (by decide) (by decide)).2.1
    (urlString { credURL with user := none }) rfl
